import Mathlib

/-!
Verification of the cellular-automaton core (`src/game.rs`) of the
game-of-life-rs repository: the `Grid` data structure, its neighbor
counting, generation advance, clearing, randomization and pattern loading.

Modelling conventions:
* `usize` indices become `Nat`; the `i32` neighbor-offset arithmetic of
  `count_neighbors` becomes `Int` arithmetic with explicit `toNat` casts,
  mirroring the `as i32` / `as usize` casts of the source.
* The Rust `Vec<CellState>` is a `List CellState`; `cells[i] = v` becomes
  `List.set`, in-bounds reads inside the algorithms become `List.getD`
  (every such read in the source is guarded so the default is never hit on
  well-formed grids), and the unchecked read of `get_cell` becomes
  `List.get?`, where `none` models the Rust index-out-of-bounds panic.
* `randomize` draws its seed from the system clock and a hasher; the model
  takes the resulting 64-bit generator state as an explicit parameter and
  quantifies over it.  The `f32` arithmetic it performs is modelled exactly
  over `ℚ`: `u64 as f32` (for values `< 2^32`) is IEEE-754
  round-to-nearest-ties-to-even at 24 bits of precision (`f32ofU32`), and
  the subsequent division by `u32::MAX as f32 = 2^32` is exact in `f32`
  (the numerator has at most 24 significant bits and the quotient is a
  normal float), so it is modelled as exact division in `ℚ`.
-/

/-- Cell state: `CellState` from src/game.rs (lines 3-9). -/
inductive CellState where
  | Alive : CellState
  | Dead : CellState
deriving DecidableEq, Repr

/-- The grid: `Grid` from src/game.rs (lines 13-21).
`cells` is the flat row-major vector, `cells[y * width + x]`. -/
structure Grid where
  width : Nat
  height : Nat
  cells : List CellState
deriving DecidableEq, Repr

namespace Grid

/-- Representation invariant maintained by the Rust code: the flat vector
has exactly `width * height` entries (established by `Grid::new` and
preserved by every method). -/
def WF (g : Grid) : Prop := g.cells.length = g.width * g.height

instance (g : Grid) : Decidable g.WF := by unfold WF; infer_instance

/-- `Grid::new` (src/game.rs lines 32-40): all cells Dead. -/
def new (width height : Nat) : Grid :=
  { width := width, height := height,
    cells := List.replicate (width * height) CellState.Dead }

/-- `Grid::default` (src/game.rs lines 240-244). -/
def default : Grid := new 50 50

/-- `Grid::get_cell` (src/game.rs lines 60-62): unchecked indexing
`&self.cells[y * self.width + x]`; `none` models the Rust panic. -/
def get_cell (g : Grid) (x y : Nat) : Option CellState :=
  g.cells.get? (y * g.width + x)

/-- `Grid::set_cell` (src/game.rs lines 70-74): bounds-checked write,
silent no-op when out of bounds. -/
def set_cell (g : Grid) (x y : Nat) (st : CellState) : Grid :=
  if x < g.width ∧ y < g.height then
    { g with cells := g.cells.set (y * g.width + x) st }
  else g

/-- `Grid::toggle_cell` (src/game.rs lines 82-90): bounds-checked flip,
silent no-op when out of bounds. -/
def toggle_cell (g : Grid) (x y : Nat) : Grid :=
  if x < g.width ∧ y < g.height then
    let index := y * g.width + x
    let flipped := match g.cells.getD index CellState.Dead with
      | CellState.Alive => CellState.Dead
      | CellState.Dead => CellState.Alive
    { g with cells := g.cells.set index flipped }
  else g

/-- `NEIGHBOR_OFFSETS` (src/game.rs lines 106-110). -/
def NEIGHBOR_OFFSETS : List (Int × Int) :=
  [(-1, -1), (-1, 0), (-1, 1),
   ( 0, -1),          ( 0, 1),
   ( 1, -1), ( 1, 0), ( 1, 1)]

/-- `Grid::count_neighbors` (src/game.rs lines 102-126): fold over the
eight offsets, counting in-bounds Alive neighbors; out-of-bounds
candidates contribute nothing (no wraparound). -/
def count_neighbors (g : Grid) (x y : Nat) : Nat :=
  NEIGHBOR_OFFSETS.foldl (fun count d =>
    let nx : Int := (x : Int) + d.1
    let ny : Int := (y : Int) + d.2
    if 0 ≤ nx ∧ 0 ≤ ny ∧ nx.toNat < g.width ∧ ny.toNat < g.height then
      if g.cells.getD (ny.toNat * g.width + nx.toNat) CellState.Dead
          = CellState.Alive then count + 1
      else count
    else count) 0

/-- The per-cell transition match of `next_generation`
(src/game.rs lines 145-152), evaluated against the pre-advance grid `g`. -/
def stepCell (g : Grid) (x y : Nat) : CellState :=
  match g.cells.getD (y * g.width + x) CellState.Dead, g.count_neighbors x y with
  | CellState.Alive, 2 => CellState.Alive
  | CellState.Alive, 3 => CellState.Alive
  | CellState.Dead, 3 => CellState.Alive
  | _, _ => CellState.Dead

/-- `Grid::next_generation` (src/game.rs lines 134-158): clone the cell
vector, overwrite every position from the pre-advance state (`stepCell`
only reads `g`, never the vector being written), then swap it in. -/
def next_generation (g : Grid) : Grid :=
  { g with cells :=
      (List.range g.height).foldl (fun cs y =>
        (List.range g.width).foldl (fun cs2 x =>
          cs2.set (y * g.width + x) (g.stepCell x y)) cs) g.cells }

/-- `Grid::clear` (src/game.rs lines 161-165): every cell set to Dead
in place. -/
def clear (g : Grid) : Grid :=
  { g with cells := g.cells.map (fun _ => CellState.Dead) }

/-- One step of the linear congruential generator of `Grid::randomize`
(src/game.rs line 192): `wrapping_mul(1664525).wrapping_add(1013904223)`
on a `u64`. -/
def rngNext (s : Nat) : Nat := (s * 1664525 + 1013904223) % 2 ^ 64

/-- Fuel-driven bit length: `bitLenAux fuel n` is the number of binary
digits of `n` provided `fuel ≥ n` (structural recursion so that the kernel
can evaluate it). -/
def bitLenAux : Nat → Nat → Nat
  | 0, _ => 0
  | fuel + 1, n => if n = 0 then 0 else bitLenAux fuel (n / 2) + 1

/-- Number of binary digits of `n` (`0` for `n = 0`). -/
def bitLen (n : Nat) : Nat := bitLenAux n n

/-- IEEE-754 conversion of an integer `k < 2^32` to `f32` (the value is
returned as the exact natural number the float denotes): round to nearest
at 24 significant bits, ties to even.  For `k < 2^24` the value is exact;
otherwise `k` is rounded to the nearest multiple of the unit in the last
place `2^(bitLen k - 24)`. -/
def f32ofU32 (k : Nat) : Nat :=
  if k < 2 ^ 24 then k
  else
    let ulp := 2 ^ (bitLen k - 24)
    let q := k / ulp
    let r := k % ulp
    if 2 * r < ulp then q * ulp
    else if 2 * r > ulp then (q + 1) * ulp
    else if q % 2 = 0 then q * ulp else (q + 1) * ulp

/-- The pseudo-random draw of `Grid::randomize` (src/game.rs line 194):
`(rng_state >> 32) as f32 / u32::MAX as f32`, as the exact rational value
of the resulting `f32` (the division is exact, see the module docstring). -/
def randVal (s : Nat) : ℚ :=
  (f32ofU32 (s >>> 32) : ℚ) / (f32ofU32 (2 ^ 32 - 1) : ℚ)

/-- `Grid::randomize` (src/game.rs lines 174-203).  `density` is the exact
rational value of the `f32` density argument; `seed` is the 64-bit
generator state obtained from hashing the current time (modelled as an
arbitrary parameter).  Each cell is overwritten in place with the result
of comparing the next draw against the density. -/
def randomize (g : Grid) (density : ℚ) (seed : Nat) : Grid :=
  { g with cells :=
      ((List.range g.cells.length).foldl
        (fun (acc : List CellState × Nat) index =>
          let s := rngNext acc.2
          (acc.1.set index
            (if randVal s < density then CellState.Alive else CellState.Dead),
           s))
        (g.cells, seed)).1 }

/-- Character interpretation of `load_pattern` (src/game.rs lines 226-231):
`'*' | '#' | 'O'` load as Alive, every other character as Dead. -/
def charToCell (c : Char) : CellState :=
  if c = '*' ∨ c = '#' ∨ c = 'O' then CellState.Alive else CellState.Dead

/-- `Grid::load_pattern` (src/game.rs lines 213-235): clear the whole grid,
then walk the stencil rows (index `dy`, here `p.1`) and their characters
(index `dx`, here `q.1`), writing `charToCell` at the target
`(x = x_offset + dx, y = y_offset + dy)` when that target is in bounds;
out-of-bounds stencil cells are silently dropped. -/
def load_pattern (g : Grid) (pattern : List (List Char))
    (x_offset y_offset : Nat) : Grid :=
  pattern.enum.foldl (fun acc p =>
    p.2.enum.foldl (fun acc2 q =>
      if x_offset + q.1 < acc2.width ∧ y_offset + p.1 < acc2.height then
        acc2.set_cell (x_offset + q.1) (y_offset + p.1) (charToCell q.2)
      else acc2) acc) g.clear

/-- A Moore-neighborhood offset `d` of `(x, y)` hits an in-bounds Alive
cell of `g`: the candidate `(x + d.1, y + d.2)` is inside
`[0, width) × [0, height)` and the cell there reads Alive. -/
def mooreAlive (g : Grid) (x y : Nat) (d : Int × Int) : Prop :=
  0 ≤ (x : Int) + d.1 ∧ 0 ≤ (y : Int) + d.2 ∧
  ((x : Int) + d.1).toNat < g.width ∧ ((y : Int) + d.2).toNat < g.height ∧
  g.get_cell ((x : Int) + d.1).toNat ((y : Int) + d.2).toNat =
    some CellState.Alive

instance (g : Grid) (x y : Nat) (d : Int × Int) : Decidable (g.mooreAlive x y d) := by
  unfold mooreAlive; infer_instance

end Grid

/-- One mutating operation of the `Grid` API, for stating invariants over
arbitrary call sequences. -/
inductive GridOp where
  | set (x y : Nat) (st : CellState) : GridOp
  | toggle (x y : Nat) : GridOp
  | clearOp : GridOp
  | next : GridOp
  | rand (density : ℚ) (seed : Nat) : GridOp
  | load (pattern : List (List Char)) (x_offset y_offset : Nat) : GridOp

/-- Apply one `GridOp` to a grid via the corresponding method. -/
def applyOp (g : Grid) : GridOp → Grid
  | GridOp.set x y st => g.set_cell x y st
  | GridOp.toggle x y => g.toggle_cell x y
  | GridOp.clearOp => g.clear
  | GridOp.next => g.next_generation
  | GridOp.rand d s => g.randomize d s
  | GridOp.load p xo yo => g.load_pattern p xo yo

/-- Apply a sequence of `GridOp`s left to right. -/
def applyOps (g : Grid) (ops : List GridOp) : Grid := ops.foldl applyOp g

/-- Horizontal blinker on a 5×5 grid, as built by
`tests::test_blinker_pattern` (src/game.rs lines 322-328). -/
def blinkerH : Grid :=
  (((Grid.new 5 5).set_cell 1 2 CellState.Alive).set_cell 2 2
    CellState.Alive).set_cell 3 2 CellState.Alive

/-- Vertical blinker on a 5×5 grid: exactly the cells (2,1), (2,2), (2,3)
Alive, everything else Dead. -/
def blinkerV : Grid :=
  (((Grid.new 5 5).set_cell 2 1 CellState.Alive).set_cell 2 2
    CellState.Alive).set_cell 2 3 CellState.Alive

/-- Horizontal blinker line (cells (1,2), (2,2), (3,2) Alive, everything
else Dead) on a W×H grid. -/
def blinkerHGen (W H : Nat) : Grid :=
  (((Grid.new W H).set_cell 1 2 CellState.Alive).set_cell 2 2
    CellState.Alive).set_cell 3 2 CellState.Alive

/-- Vertical blinker line (cells (2,1), (2,2), (2,3) Alive, everything
else Dead) on a W×H grid. -/
def blinkerVGen (W H : Nat) : Grid :=
  (((Grid.new W H).set_cell 2 1 CellState.Alive).set_cell 2 2
    CellState.Alive).set_cell 2 3 CellState.Alive

namespace Grid

/-! ### Generic list and index helpers -/

theorem getD_eq_some_get? {α} (l : List α) (d : α) {j : Nat} (h : j < l.length) :
    l.get? j = some (l.getD j d) := by
  rw [List.getD_eq_get?]
  rcases hj : l.get? j with _ | a
  · exact absurd (List.get?_eq_none.mp hj) (Nat.not_le_of_lt h)
  · rfl

theorem index_lt {w h x y : Nat} (hx : x < w) (hy : y < h) :
    y * w + x < w * h := by
  calc y * w + x < y * w + w := by omega
    _ = (y + 1) * w := by ring
    _ ≤ h * w := Nat.mul_le_mul_right w hy
    _ = w * h := Nat.mul_comm h w

theorem index_inj {w x x' y y' : Nat} (hx : x < w) (hx' : x' < w)
    (h : y * w + x = y' * w + x') : x = x' ∧ y = y' := by
  have hw : 0 < w := Nat.lt_of_le_of_lt (Nat.zero_le x) hx
  have m1 : (y * w + x) % w = x := by
    rw [Nat.add_comm, Nat.add_mul_mod_self_right, Nat.mod_eq_of_lt hx]
  have m2 : (y' * w + x') % w = x' := by
    rw [Nat.add_comm, Nat.add_mul_mod_self_right, Nat.mod_eq_of_lt hx']
  have d1 : (y * w + x) / w = y := by
    rw [Nat.add_comm, Nat.add_mul_div_right x y hw, Nat.div_eq_of_lt hx]; omega
  have d2 : (y' * w + x') / w = y' := by
    rw [Nat.add_comm, Nat.add_mul_div_right x' y' hw, Nat.div_eq_of_lt hx']; omega
  constructor
  · rw [← m1, ← m2, h]
  · rw [← d1, ← d2, h]

theorem foldl_length_invariant {α β} (f : List α → β → List α)
    (hf : ∀ cs b, (f cs b).length = cs.length) :
    ∀ (r : List β) (l : List α), (r.foldl f l).length = l.length := by
  intro r
  induction r with
  | nil => intro l; rfl
  | cons b r ih => intro l; rw [List.foldl_cons, ih, hf]

/-- Evaluating a fold that writes `f i` at flat position `base + i` for
each `i` in `range n`. -/
theorem getD_foldl_set {α} (f : Nat → α) (d : α) (base : Nat) :
    ∀ (n : Nat) (l : List α) (j : Nat),
    ((List.range n).foldl (fun cs i => cs.set (base + i) (f i)) l).getD j d =
      if base ≤ j ∧ j < base + n ∧ j < l.length then f (j - base)
      else l.getD j d := by
  intro n
  induction n with
  | zero =>
    intro l j
    rw [List.range_zero, List.foldl_nil, if_neg]
    omega
  | succ n ih =>
    intro l j
    have hlen : ((List.range n).foldl
        (fun cs i => cs.set (base + i) (f i)) l).length = l.length :=
      foldl_length_invariant _ (fun cs b => List.length_set cs _ _) _ l
    rw [List.range_succ, List.foldl_append, List.foldl_cons, List.foldl_nil]
    by_cases hj : j = base + n
    · subst hj
      by_cases hb : base + n < l.length
      · have hb' : base + n <
            ((List.range n).foldl (fun cs i => cs.set (base + i) (f i)) l).length := by
          rw [hlen]; exact hb
        rw [List.getD_eq_get?, List.get?_set_eq_of_lt _ hb', Option.getD_some,
          if_pos (by omega), Nat.add_sub_cancel_left]
      · have hb' : ((List.range n).foldl
            (fun cs i => cs.set (base + i) (f i)) l).length ≤ base + n := by omega
        rw [List.getD_eq_get?, List.getD_eq_get?]
        rw [List.get?_eq_none.mpr (by rw [List.length_set]; exact hb'),
          List.get?_eq_none.mpr (by omega), if_neg (by omega)]
    · rw [List.getD_eq_get?, List.get?_set_ne _ _ (fun e => hj e.symm),
        ← List.getD_eq_get?, ih]
      by_cases hc : base ≤ j ∧ j < base + n ∧ j < l.length
      · rw [if_pos hc, if_pos (by omega)]
      · rw [if_neg hc, if_neg (by omega)]

/-- Evaluating the row-major double fold of `next_generation` at an
in-bounds flat index. -/
theorem getD_foldl_rows {α} (f : Nat → Nat → α) (d : α) (w : Nat) :
    ∀ (m : Nat) (l : List α) (x0 y0 : Nat), x0 < w → y0 < m →
      y0 * w + x0 < l.length →
    ((List.range m).foldl (fun cs y =>
        (List.range w).foldl (fun cs2 x => cs2.set (y * w + x) (f x y)) cs)
      l).getD (y0 * w + x0) d = f x0 y0 := by
  intro m
  induction m with
  | zero => intro l x0 y0 hx hy; omega
  | succ m ih =>
    intro l x0 y0 hx hy hj
    have hlen : ((List.range m).foldl (fun cs y =>
        (List.range w).foldl (fun cs2 x => cs2.set (y * w + x) (f x y)) cs)
        l).length = l.length := by
      refine foldl_length_invariant _ (fun cs b => ?_) _ l
      exact foldl_length_invariant _ (fun cs2 b2 => List.length_set cs2 _ _) _ cs
    rw [List.range_succ, List.foldl_append, List.foldl_cons, List.foldl_nil]
    by_cases hy0 : y0 = m
    · subst hy0
      rw [getD_foldl_set]
      rw [if_pos ⟨by omega, by omega, by rw [hlen]; omega⟩]
      congr 1
      omega
    · have hy' : y0 < m := by omega
      have hlt : y0 * w + x0 < m * w := by
        calc y0 * w + x0 < (y0 + 1) * w := by
              rw [Nat.add_mul, Nat.one_mul]; omega
          _ ≤ m * w := Nat.mul_le_mul_right w (by omega)
      rw [getD_foldl_set, if_neg (by omega)]
      exact ih l x0 y0 hx hy' hj

/-! ### Basic grid observations -/

theorem next_generation_width (g : Grid) : g.next_generation.width = g.width := rfl

theorem next_generation_height (g : Grid) : g.next_generation.height = g.height := rfl

theorem next_generation_length (g : Grid) :
    g.next_generation.cells.length = g.cells.length := by
  unfold next_generation
  refine foldl_length_invariant _ (fun cs b => ?_) _ _
  exact foldl_length_invariant _ (fun cs2 b2 => List.length_set cs2 _ _) _ cs

theorem get_cell_eq_getD {g : Grid} (hwf : g.WF) {x y : Nat}
    (hx : x < g.width) (hy : y < g.height) :
    g.get_cell x y = some (g.cells.getD (y * g.width + x) CellState.Dead) := by
  unfold get_cell
  exact getD_eq_some_get? _ _ (by rw [hwf]; exact index_lt hx hy)

theorem stepCell_eq_alive_iff (g : Grid) (x y : Nat) :
    g.stepCell x y = CellState.Alive ↔
      ((g.cells.getD (y * g.width + x) CellState.Dead = CellState.Alive ∧
        (g.count_neighbors x y = 2 ∨ g.count_neighbors x y = 3)) ∨
       (g.cells.getD (y * g.width + x) CellState.Dead = CellState.Dead ∧
        g.count_neighbors x y = 3)) := by
  unfold stepCell
  rcases hc : g.cells.getD (y * g.width + x) CellState.Dead with _ | _ <;>
    rcases hn : g.count_neighbors x y with _ | _ | _ | _ | n <;>
      simp

/-- The cell vector produced by `next_generation`, read at an in-bounds
position, is the transition rule applied to the pre-advance grid. -/
theorem next_generation_get_cell (g : Grid) (hwf : g.WF) {x y : Nat}
    (hx : x < g.width) (hy : y < g.height) :
    g.next_generation.get_cell x y = some (g.stepCell x y) := by
  have hlt : y * g.width + x < g.cells.length := by
    rw [hwf]; exact index_lt hx hy
  have hlt' : y * g.width + x < g.next_generation.cells.length := by
    rw [next_generation_length]; exact hlt
  unfold get_cell
  rw [next_generation_width, getD_eq_some_get? _ CellState.Dead hlt']
  congr 1
  unfold next_generation
  exact getD_foldl_rows (fun x y => g.stepCell x y) CellState.Dead g.width
    g.height g.cells x y hx hy hlt

end Grid

/-- Two well-formed grids with equal dimensions and cell-by-cell equal
in-bounds reads are equal. -/
theorem Grid.grid_ext {g1 g2 : Grid} (h1 : g1.WF) (h2 : g2.WF)
    (hw : g1.width = g2.width) (hh : g1.height = g2.height)
    (hc : ∀ x, x < g1.width → ∀ y, y < g1.height →
      g1.get_cell x y = g2.get_cell x y) : g1 = g2 := by
  rcases g1 with ⟨w, h, c1⟩
  rcases g2 with ⟨w2, h2v, c2⟩
  unfold Grid.WF at h1 h2
  dsimp at h1 h2 hw hh hc ⊢
  subst hw; subst hh
  have hcells : c1 = c2 := by
    apply List.ext
    intro n
    by_cases hn : n < w * h
    · have hw0 : 0 < w := by
        rcases Nat.eq_zero_or_pos w with h0 | h0
        · subst h0; omega
        · exact h0
      have hx : n % w < w := Nat.mod_lt _ hw0
      have hy : n / w < h := by
        have hn2 : n < h * w := by rw [Nat.mul_comm]; exact hn
        exact (Nat.div_lt_iff_lt_mul hw0).mpr hn2
      have hidx : n / w * w + n % w = n := by
        rw [Nat.mul_comm]; exact Nat.div_add_mod n w
      have := hc (n % w) hx (n / w) hy
      unfold Grid.get_cell at this
      dsimp at this
      rw [hidx] at this
      exact this
    · rw [List.get?_eq_none.mpr (by omega), List.get?_eq_none.mpr (by omega)]
  subst hcells
  rfl

/-- C1: for every grid, `next_generation` makes cell `(x, y)` Alive iff its
pre-advance state was Alive with pre-advance neighbor count 2 or 3, or Dead
with pre-advance neighbor count exactly 3; the neighbor counts on the right
are evaluated against the pre-advance grid `g` only. -/
theorem Grid.next_generation_rule (g : Grid) (hwf : g.WF) (x y : Nat)
    (hx : x < g.width) (hy : y < g.height) :
    g.next_generation.get_cell x y = some CellState.Alive ↔
      ((g.get_cell x y = some CellState.Alive ∧
        (g.count_neighbors x y = 2 ∨ g.count_neighbors x y = 3)) ∨
       (g.get_cell x y = some CellState.Dead ∧ g.count_neighbors x y = 3)) := by
  rw [Grid.next_generation_get_cell g hwf hx hy, Grid.get_cell_eq_getD hwf hx hy]
  simp only [Option.some.injEq]
  exact Grid.stepCell_eq_alive_iff g x y

/-- Witness for C1 at the blinker grid, cell (2, 1). -/
theorem next_generation_rule_witness :
    blinkerH.WF ∧ 2 < blinkerH.width ∧ 1 < blinkerH.height ∧
    (blinkerH.next_generation.get_cell 2 1 = some CellState.Alive ↔
      ((blinkerH.get_cell 2 1 = some CellState.Alive ∧
        (blinkerH.count_neighbors 2 1 = 2 ∨ blinkerH.count_neighbors 2 1 = 3)) ∨
       (blinkerH.get_cell 2 1 = some CellState.Dead ∧
        blinkerH.count_neighbors 2 1 = 3))) :=
  ⟨by decide, by decide, by decide,
   Grid.next_generation_rule blinkerH (by decide) 2 1 (by decide) (by decide)⟩

/-- C5: out-of-bounds writes are silent no-ops: when `x ≥ width` or
`y ≥ height`, both `set_cell` and `toggle_cell` return the grid unchanged
(and, being total functions, raise no error). -/
theorem Grid.oob_write_noop (g : Grid) (x y : Nat) (st : CellState)
    (h : g.width ≤ x ∨ g.height ≤ y) :
    g.set_cell x y st = g ∧ g.toggle_cell x y = g := by
  have hnot : ¬(x < g.width ∧ y < g.height) := by omega
  constructor
  · unfold Grid.set_cell; rw [if_neg hnot]
  · unfold Grid.toggle_cell; rw [if_neg hnot]

/-- Witness for C5 on a 2×2 grid at (5, 0). -/
theorem oob_write_noop_witness :
    ((Grid.new 2 2).width ≤ 5 ∨ (Grid.new 2 2).height ≤ 0) ∧
    ((Grid.new 2 2).set_cell 5 0 CellState.Alive = Grid.new 2 2 ∧
     (Grid.new 2 2).toggle_cell 5 0 = Grid.new 2 2) :=
  ⟨by decide, Grid.oob_write_noop (Grid.new 2 2) 5 0 CellState.Alive (by decide)⟩

/-- C6: `next_generation` is deterministic: two separately-constructed
grids with equal width, height and cell-by-cell identical states advance
to cell-by-cell identical states. -/
theorem Grid.next_generation_deterministic (g1 g2 : Grid)
    (h1 : g1.WF) (h2 : g2.WF)
    (hw : g1.width = g2.width) (hh : g1.height = g2.height)
    (hc : ∀ x, x < g1.width → ∀ y, y < g1.height →
      g1.get_cell x y = g2.get_cell x y) :
    ∀ x, x < g1.width → ∀ y, y < g1.height →
      g1.next_generation.get_cell x y = g2.next_generation.get_cell x y := by
  have hg : g1 = g2 := Grid.grid_ext h1 h2 hw hh hc
  intro x hx y hy
  rw [hg]

/-- Witness for C6: the blinker grid compared with itself rebuilt in a
different construction order. -/
theorem next_generation_deterministic_witness :
    blinkerH.WF ∧
    blinkerH.next_generation.get_cell 2 1 =
      ((((Grid.new 5 5).set_cell 3 2 CellState.Alive).set_cell 2 2
        CellState.Alive).set_cell 1 2 CellState.Alive).next_generation.get_cell 2 1 :=
  ⟨by decide,
   Grid.next_generation_deterministic blinkerH
     ((((Grid.new 5 5).set_cell 3 2 CellState.Alive).set_cell 2 2
       CellState.Alive).set_cell 1 2 CellState.Alive)
     (by decide) (by decide) (by decide) (by decide) (by decide)
     2 (by decide) 1 (by decide)⟩

/-- C9: `clear` is idempotent: one call leaves every cell Dead, and a
second call yields exactly the same all-Dead grid. -/
theorem Grid.clear_idempotent (g : Grid) (hwf : g.WF) (x y : Nat)
    (hx : x < g.width) (hy : y < g.height) :
    g.clear.get_cell x y = some CellState.Dead ∧ g.clear.clear = g.clear := by
  constructor
  · unfold Grid.clear Grid.get_cell
    dsimp
    rw [List.get?_map,
      Grid.getD_eq_some_get? g.cells CellState.Dead
        (by rw [hwf]; exact Grid.index_lt hx hy)]
    rfl
  · unfold Grid.clear
    dsimp
    rw [List.map_map]
    rfl

/-- Witness for C9 on the blinker grid at (1, 2). -/
theorem clear_idempotent_witness :
    blinkerH.WF ∧
    (blinkerH.clear.get_cell 1 2 = some CellState.Dead ∧
     blinkerH.clear.clear = blinkerH.clear) :=
  ⟨by decide, Grid.clear_idempotent blinkerH (by decide) 1 2 (by decide) (by decide)⟩

/-- C10: `get_cell` is unchecked flat indexing at `y * width + x`: on a
well-formed grid it panics (`none`) iff `y * width + x ≥ width * height`,
and for some out-of-bounds coordinates it silently aliases a different
in-range cell: on a 2×2 grid with only (0, 1) Alive, reading the
out-of-bounds coordinate (2, 0) returns that other cell's Alive state. -/
theorem Grid.get_cell_flat_index :
    (∀ (g : Grid), g.WF → ∀ x y : Nat,
      (g.get_cell x y = none ↔ g.width * g.height ≤ y * g.width + x)) ∧
    ((Grid.new 2 2).width ≤ 2 ∧
     ((Grid.new 2 2).set_cell 0 1 CellState.Alive).get_cell 2 0 =
       some CellState.Alive ∧
     ((Grid.new 2 2).set_cell 0 1 CellState.Alive).get_cell 2 0 =
       ((Grid.new 2 2).set_cell 0 1 CellState.Alive).get_cell 0 1) := by
  constructor
  · intro g hwf x y
    unfold Grid.get_cell
    rw [List.get?_eq_none, hwf]
  · exact ⟨by decide, by decide, by decide⟩

/-- Witness for C10 on a 2×2 grid at the panicking coordinate (0, 5). -/
theorem get_cell_flat_index_witness :
    (Grid.new 2 2).WF ∧
    ((Grid.new 2 2).get_cell 0 5 = none ↔
      (Grid.new 2 2).width * (Grid.new 2 2).height ≤
        5 * (Grid.new 2 2).width + 0) :=
  ⟨by decide, Grid.get_cell_flat_index.1 (Grid.new 2 2) (by decide) 0 5⟩

/-! ### Counting helpers for C2 -/

namespace Grid

theorem foldl_count_filter {α} (p : α → Bool) :
    ∀ (l : List α) (n : Nat),
    l.foldl (fun c a => if p a then c + 1 else c) n = n + (l.filter p).length := by
  intro l
  induction l with
  | nil => intro n; simp
  | cons a l ih =>
    intro n
    rw [List.foldl_cons, List.filter_cons]
    by_cases h : p a
    · rw [if_pos h, if_pos h, ih, List.length_cons]
      omega
    · rw [if_neg h, if_neg h, ih]

theorem count_neighbors_eq_filter (g : Grid) (hwf : g.WF) (x y : Nat) :
    g.count_neighbors x y =
      (NEIGHBOR_OFFSETS.filter (fun d => decide (g.mooreAlive x y d))).length := by
  have key : ∀ (l : List (Int × Int)) (n : Nat),
      l.foldl (fun count d =>
        if 0 ≤ (x : Int) + d.1 ∧ 0 ≤ (y : Int) + d.2 ∧
            ((x : Int) + d.1).toNat < g.width ∧
            ((y : Int) + d.2).toNat < g.height then
          if g.cells.getD
              (((y : Int) + d.2).toNat * g.width + ((x : Int) + d.1).toNat)
              CellState.Dead = CellState.Alive then count + 1
          else count
        else count) n
      = n + (l.filter (fun d => decide (g.mooreAlive x y d))).length := by
    intro l
    induction l with
    | nil => intro n; simp
    | cons d l ih =>
      intro n
      rw [List.foldl_cons, List.filter_cons]
      by_cases hb : 0 ≤ (x : Int) + d.1 ∧ 0 ≤ (y : Int) + d.2 ∧
          ((x : Int) + d.1).toNat < g.width ∧ ((y : Int) + d.2).toNat < g.height
      · by_cases ha : g.cells.getD
            (((y : Int) + d.2).toNat * g.width + ((x : Int) + d.1).toNat)
            CellState.Dead = CellState.Alive
        · have hm : g.mooreAlive x y d := by
            refine ⟨hb.1, hb.2.1, hb.2.2.1, hb.2.2.2, ?_⟩
            rw [get_cell_eq_getD hwf hb.2.2.1 hb.2.2.2, ha]
          rw [if_pos hb, if_pos ha, if_pos (decide_eq_true hm), ih,
            List.length_cons]
          omega
        · have hm : ¬g.mooreAlive x y d := by
            rintro ⟨-, -, h3, h4, h5⟩
            rw [get_cell_eq_getD hwf h3 h4] at h5
            exact ha (Option.some.inj h5)
          rw [if_pos hb, if_neg ha, if_neg (by rw [decide_eq_false hm]; simp), ih]
      · have hm : ¬g.mooreAlive x y d := by
          rintro ⟨h1, h2, h3, h4, -⟩
          exact hb ⟨h1, h2, h3, h4⟩
        rw [if_neg hb, if_neg (by rw [decide_eq_false hm]; simp), ih]
  have h0 := key NEIGHBOR_OFFSETS 0
  rw [Nat.zero_add] at h0
  unfold count_neighbors
  exact h0

end Grid

/-- C2: for every grid and in-bounds coordinate, `count_neighbors` returns
the number of Moore-neighborhood offsets — exactly the pairs `(dx, dy)`
with `dx` and `dy` each one of -1, 0, 1, excluding `(0, 0)` — that hit an
in-bounds Alive cell (out-of-bounds candidates contribute nothing — no
wraparound), and the result is at most 8. -/
theorem Grid.count_neighbors_spec (g : Grid) (hwf : g.WF) (x y : Nat)
    (hx : x < g.width) (hy : y < g.height) :
    g.count_neighbors x y =
      (Grid.NEIGHBOR_OFFSETS.filter (fun d => decide (g.mooreAlive x y d))).length ∧
    g.count_neighbors x y ≤ 8 ∧
    (∀ d : Int × Int, d ∈ Grid.NEIGHBOR_OFFSETS ↔
      ((d.1 = -1 ∨ d.1 = 0 ∨ d.1 = 1) ∧ (d.2 = -1 ∨ d.2 = 0 ∨ d.2 = 1) ∧
       ¬(d.1 = 0 ∧ d.2 = 0))) := by
  have h := Grid.count_neighbors_eq_filter g hwf x y
  refine ⟨h, ?_, ?_⟩
  · rw [h]
    exact List.length_filter_le _ _
  · intro d
    constructor
    · intro hd
      fin_cases hd <;> refine ⟨by omega, by omega, by omega⟩
    · rintro ⟨h1, h2, h3⟩
      rcases d with ⟨d1, d2⟩
      simp only at h1 h2 h3
      unfold Grid.NEIGHBOR_OFFSETS
      rcases h1 with rfl | rfl | rfl <;> rcases h2 with rfl | rfl | rfl <;>
        first
          | decide
          | exact absurd ⟨rfl, rfl⟩ h3

/-- Witness for C2 on the blinker grid at (2, 2). -/
theorem count_neighbors_spec_witness :
    blinkerH.WF ∧ 2 < blinkerH.width ∧ 2 < blinkerH.height ∧
    (blinkerH.count_neighbors 2 2 =
      (Grid.NEIGHBOR_OFFSETS.filter
        (fun d => decide (blinkerH.mooreAlive 2 2 d))).length ∧
     blinkerH.count_neighbors 2 2 ≤ 8 ∧
     (∀ d : Int × Int, d ∈ Grid.NEIGHBOR_OFFSETS ↔
       ((d.1 = -1 ∨ d.1 = 0 ∨ d.1 = 1) ∧ (d.2 = -1 ∨ d.2 = 0 ∨ d.2 = 1) ∧
        ¬(d.1 = 0 ∧ d.2 = 0)))) :=
  ⟨by decide, by decide, by decide,
   Grid.count_neighbors_spec blinkerH (by decide) 2 2 (by decide) (by decide)⟩

/-! ### Dimension preservation (C8) -/

namespace Grid

/-- Width, height and cell count are together preserved from `g` to `g'`. -/
def SameDims (g g' : Grid) : Prop :=
  g'.width = g.width ∧ g'.height = g.height ∧
  g'.cells.length = g.cells.length

theorem sameDims_refl (g : Grid) : SameDims g g := ⟨rfl, rfl, rfl⟩

theorem sameDims_trans {g1 g2 g3 : Grid} (h12 : SameDims g1 g2)
    (h23 : SameDims g2 g3) : SameDims g1 g3 :=
  ⟨h23.1.trans h12.1, h23.2.1.trans h12.2.1, h23.2.2.trans h12.2.2⟩

theorem foldl_sameDims {β} (f : Grid → β → Grid)
    (hf : ∀ g b, SameDims g (f g b)) :
    ∀ (r : List β) (g : Grid), SameDims g (r.foldl f g) := by
  intro r
  induction r with
  | nil => intro g; exact sameDims_refl g
  | cons b r ih =>
    intro g
    rw [List.foldl_cons]
    exact sameDims_trans (hf g b) (ih (f g b))

theorem set_cell_sameDims (g : Grid) (x y : Nat) (st : CellState) :
    SameDims g (g.set_cell x y st) := by
  unfold set_cell
  split
  · exact ⟨rfl, rfl, List.length_set g.cells _ _⟩
  · exact sameDims_refl g

theorem toggle_cell_sameDims (g : Grid) (x y : Nat) :
    SameDims g (g.toggle_cell x y) := by
  unfold toggle_cell
  split
  · exact ⟨rfl, rfl, List.length_set g.cells _ _⟩
  · exact sameDims_refl g

theorem clear_sameDims (g : Grid) : SameDims g g.clear :=
  ⟨rfl, rfl, List.length_map g.cells _⟩

theorem next_generation_sameDims (g : Grid) :
    SameDims g g.next_generation :=
  ⟨rfl, rfl, next_generation_length g⟩

theorem randomize_fold_length (density : ℚ) :
    ∀ (r : List Nat) (p : List CellState × Nat),
    ((r.foldl (fun (acc : List CellState × Nat) index =>
        (acc.1.set index
          (if randVal (rngNext acc.2) < density then CellState.Alive
           else CellState.Dead),
         rngNext acc.2)) p).1).length = p.1.length := by
  intro r
  induction r with
  | nil => intro p; rfl
  | cons i r ih =>
    intro p
    rw [List.foldl_cons, ih]
    exact List.length_set p.1 _ _

theorem randomize_sameDims (g : Grid) (density : ℚ) (seed : Nat) :
    SameDims g (g.randomize density seed) := by
  refine ⟨rfl, rfl, ?_⟩
  unfold randomize
  exact randomize_fold_length density (List.range g.cells.length) (g.cells, seed)

theorem load_pattern_sameDims (g : Grid) (pattern : List (List Char))
    (xo yo : Nat) : SameDims g (g.load_pattern pattern xo yo) := by
  unfold load_pattern
  refine sameDims_trans (clear_sameDims g) ?_
  refine foldl_sameDims _ (fun acc p => ?_) _ g.clear
  refine foldl_sameDims _ (fun acc2 q => ?_) _ acc
  split
  · exact set_cell_sameDims acc2 _ _ _
  · exact sameDims_refl acc2

theorem applyOp_sameDims (g : Grid) (op : GridOp) :
    SameDims g (applyOp g op) := by
  cases op with
  | set x y st => exact set_cell_sameDims g x y st
  | toggle x y => exact toggle_cell_sameDims g x y
  | clearOp => exact clear_sameDims g
  | next => exact next_generation_sameDims g
  | rand d s => exact randomize_sameDims g d s
  | load p xo yo => exact load_pattern_sameDims g p xo yo

end Grid

/-- C8: a grid built by `new w h` stores exactly `w * h` cells, `default`
is `new 50 50`, and after any sequence of `set_cell`, `toggle_cell`,
`clear`, `next_generation`, `randomize` and `load_pattern` operations the
width, the height and the stored cell count are unchanged. -/
theorem Grid.dims_cells_invariant (w h : Nat) (ops : List GridOp) :
    (Grid.new w h).cells.length = w * h ∧
    Grid.default = Grid.new 50 50 ∧
    (applyOps (Grid.new w h) ops).width = w ∧
    (applyOps (Grid.new w h) ops).height = h ∧
    (applyOps (Grid.new w h) ops).cells.length = w * h := by
  have hbase : (Grid.new w h).cells.length = w * h :=
    List.length_replicate (w * h) CellState.Dead
  have hfold : Grid.SameDims (Grid.new w h) (applyOps (Grid.new w h) ops) :=
    Grid.foldl_sameDims applyOp Grid.applyOp_sameDims ops (Grid.new w h)
  exact ⟨hbase, rfl, hfold.1, hfold.2.1, hfold.2.2.trans hbase⟩

/-! ### Randomization (C4) -/

namespace Grid

theorem randVal_nonneg (s : Nat) : 0 ≤ randVal s := by
  unfold randVal
  exact div_nonneg (Nat.cast_nonneg _) (Nat.cast_nonneg _)

theorem randomize_zero_fold (seed : Nat) :
    ∀ (n : Nat) (cs : List CellState) (j : Nat), j < n → j < cs.length →
    (((List.range n).foldl (fun (acc : List CellState × Nat) index =>
        (acc.1.set index
          (if randVal (rngNext acc.2) < 0 then CellState.Alive
           else CellState.Dead),
         rngNext acc.2)) (cs, seed)).1).getD j CellState.Dead
      = CellState.Dead := by
  intro n
  induction n with
  | zero => intro cs j hj; omega
  | succ n ih =>
    intro cs j hj hlen
    rw [List.range_succ, List.foldl_append, List.foldl_cons, List.foldl_nil]
    have hplen : (((List.range n).foldl (fun (acc : List CellState × Nat) index =>
        (acc.1.set index
          (if randVal (rngNext acc.2) < 0 then CellState.Alive
           else CellState.Dead),
         rngNext acc.2)) (cs, seed)).1).length = cs.length :=
      randomize_fold_length 0 (List.range n) (cs, seed)
    by_cases hjn : j = n
    · subst hjn
      rw [if_neg (not_lt.mpr (randVal_nonneg _))]
      rw [List.getD_eq_get?, List.get?_set_eq_of_lt _ (by omega), Option.getD_some]
    · rw [List.getD_eq_get?, List.get?_set_ne _ _ (fun e => hjn e.symm),
        ← List.getD_eq_get?]
      exact ih cs j (by omega) hlen

/-- Supporting result for C4: `randomize` with density `0.0` leaves every
cell Dead, for every seed (the draw is never `< 0.0` since every draw is
non-negative); this half of the claim holds. -/
theorem randomize_zero_all_dead (g : Grid) (hwf : g.WF) (seed : Nat)
    (x y : Nat) (hx : x < g.width) (hy : y < g.height) :
    (g.randomize 0 seed).get_cell x y = some CellState.Dead := by
  have hlt : y * g.width + x < g.cells.length := by
    rw [hwf]; exact index_lt hx hy
  have hflen : (g.randomize 0 seed).cells.length = g.cells.length :=
    (randomize_sameDims g 0 seed).2.2
  unfold get_cell
  rw [getD_eq_some_get? _ CellState.Dead
    (by rw [hflen]; exact hlt)]
  congr 1
  show (g.randomize 0 seed).cells.getD (y * g.width + x) CellState.Dead
    = CellState.Dead
  unfold randomize
  exact randomize_zero_fold seed g.cells.length g.cells (y * g.width + x)
    hlt hlt

end Grid

/-- C4: the density-1.0 half of the claim fails on the code.  With density
`1.0`, a draw whose high 32 bits are `u32::MAX` converts to the `f32`
value exactly `1.0` (the integer `2^32 - 1` rounds up to `2^32` at 24-bit
precision, and `(2^32 : f32) / (u32::MAX as f32) = 1.0`), so the strict
test `rand_val < 1.0` fails and the cell is left Dead.  At seed
15025464703643422693 the first generator step produces exactly such a
draw, so on a 1×1 grid `randomize(1.0)` leaves the single cell Dead,
contradicting the claim (and the code's own doc comment, src/game.rs
line 172). -/
theorem randomize_one_leaves_dead_cell :
    ((Grid.new 1 1).randomize 1 15025464703643422693).get_cell 0 0 =
      some CellState.Dead := by
  have hk : Grid.rngNext 15025464703643422693 >>> 32 = 4294967295 := by decide
  have hf : Grid.f32ofU32 4294967295 = 4294967296 := by decide
  have hden : Grid.f32ofU32 (2 ^ 32 - 1) = 4294967296 := by decide
  have hv : Grid.randVal (Grid.rngNext 15025464703643422693) = 1 := by
    unfold Grid.randVal
    rw [hk, hf, hden]
    norm_num
  have hgrid : (Grid.new 1 1).randomize 1 15025464703643422693 =
      { width := 1, height := 1, cells := [CellState.Dead] } := by
    unfold Grid.randomize
    have h1 : (Grid.new 1 1).cells = [CellState.Dead] := rfl
    congr 1
    simp only [h1, List.length_cons, List.length_nil, Nat.zero_add,
      List.range_succ, List.range_zero, List.nil_append,
      List.foldl_cons, List.foldl_nil]
    dsimp only
    rw [hv, if_neg (lt_irrefl (1 : ℚ))]
    rfl
  rw [hgrid]
  rfl

/-! ### Pattern loading (C3) -/

namespace Grid

theorem sameDims_WF {g g' : Grid} (h : SameDims g g') (hwf : g.WF) : g'.WF := by
  unfold WF at *
  rw [h.1, h.2.1, h.2.2]
  exact hwf

theorem get_cell_clear (g : Grid) (hwf : g.WF) {x y : Nat}
    (hx : x < g.width) (hy : y < g.height) :
    g.clear.get_cell x y = some CellState.Dead := by
  unfold clear get_cell
  dsimp only
  rw [List.get?_map, getD_eq_some_get? g.cells CellState.Dead
    (by rw [hwf]; exact index_lt hx hy)]
  rfl

theorem get_cell_set_cell (g : Grid) (hwf : g.WF) {x y : Nat}
    (hx : x < g.width) (hy : y < g.height) (a b : Nat) (st : CellState) :
    (g.set_cell a b st).get_cell x y =
      if a = x ∧ b = y then some st else g.get_cell x y := by
  unfold set_cell get_cell
  by_cases hab : a < g.width ∧ b < g.height
  · rw [if_pos hab]
    dsimp only
    by_cases heq : a = x ∧ b = y
    · obtain ⟨rfl, rfl⟩ := heq
      rw [if_pos ⟨rfl, rfl⟩]
      exact List.get?_set_eq_of_lt st (by rw [hwf]; exact index_lt hx hy)
    · rw [if_neg heq]
      apply List.get?_set_ne
      intro he
      exact heq ⟨(index_inj hab.1 hx he).1, (index_inj hab.1 hx he).2⟩
  · rw [if_neg hab,
      if_neg (fun heq => hab ⟨by rw [heq.1]; exact hx, by rw [heq.2]; exact hy⟩)]

/-- Evaluating one row pass of `load_pattern` (the inner `enumFrom` fold,
writing row characters at `(xo + dx, yT)`). -/
theorem load_row_get_cell {W H x y : Nat} (hx : x < W) (hy : y < H)
    (xo yT : Nat) :
    ∀ (row : List Char) (n : Nat) (acc : Grid), acc.WF → acc.width = W →
      acc.height = H →
    ((row.enumFrom n).foldl (fun acc2 q =>
        if xo + q.1 < acc2.width ∧ yT < acc2.height then
          acc2.set_cell (xo + q.1) yT (charToCell q.2)
        else acc2) acc).get_cell x y =
      if y = yT ∧ xo + n ≤ x ∧ x < xo + n + row.length
      then some (charToCell (row.getD (x - (xo + n)) ' '))
      else acc.get_cell x y := by
  intro row
  induction row with
  | nil =>
    intro n acc hwf hW hH
    rw [List.enumFrom_nil, List.foldl_nil, if_neg (by simp only [List.length_nil]; omega)]
  | cons c rest ih =>
    intro n acc hwf hW hH
    rw [List.enumFrom_cons, List.foldl_cons]
    dsimp only
    set acc1 : Grid :=
      if xo + n < acc.width ∧ yT < acc.height then
        acc.set_cell (xo + n) yT (charToCell c)
      else acc with hacc1
    have hdims : SameDims acc acc1 := by
      rw [hacc1]
      split
      · exact set_cell_sameDims acc _ _ _
      · exact sameDims_refl acc
    have hwf1 : acc1.WF := sameDims_WF hdims hwf
    have hW1 : acc1.width = W := hdims.1.trans hW
    have hH1 : acc1.height = H := hdims.2.1.trans hH
    rw [ih (n + 1) acc1 hwf1 hW1 hH1]
    by_cases h1 : y = yT ∧ x = xo + n
    · obtain ⟨hyT, hxn⟩ := h1
      rw [if_neg (by omega)]
      have hcond : xo + n < acc.width ∧ yT < acc.height := by
        constructor
        · rw [hW]; omega
        · rw [hH]; omega
      rw [hacc1, if_pos hcond,
        get_cell_set_cell acc hwf (by rw [hW]; exact hx) (by rw [hH]; exact hy)
          (xo + n) yT (charToCell c),
        if_pos ⟨hxn.symm, hyT.symm⟩]
      have hz : x - (xo + n) = 0 := by omega
      rw [if_pos ⟨hyT, by omega, by simp only [List.length_cons]; omega⟩,
        hz, List.getD_cons_zero]
    · by_cases h2 : y = yT ∧ xo + (n + 1) ≤ x ∧ x < xo + (n + 1) + rest.length
      · have hsucc : x - (xo + n) = (x - (xo + (n + 1))) + 1 := by omega
        rw [if_pos h2, hsucc, List.getD_cons_succ,
          if_pos ⟨h2.1, by omega, by simp only [List.length_cons]; omega⟩]
      · rw [if_neg h2,
          if_neg (by simp only [List.length_cons]; omega)]
        rw [hacc1]
        by_cases hcond : xo + n < acc.width ∧ yT < acc.height
        · rw [if_pos hcond,
            get_cell_set_cell acc hwf (by rw [hW]; exact hx)
              (by rw [hH]; exact hy) (xo + n) yT (charToCell c),
            if_neg (fun he => h1 ⟨he.2.symm, he.1.symm⟩)]
        · rw [if_neg hcond]

/-- Evaluating the outer row loop of `load_pattern` starting at row
index `m`. -/
theorem load_rows_get_cell {W H x y : Nat} (hx : x < W) (hy : y < H)
    (xo yo : Nat) :
    ∀ (pattern : List (List Char)) (m : Nat) (acc : Grid), acc.WF →
      acc.width = W → acc.height = H →
    ((pattern.enumFrom m).foldl (fun acc p =>
        p.2.enum.foldl (fun acc2 q =>
          if xo + q.1 < acc2.width ∧ yo + p.1 < acc2.height then
            acc2.set_cell (xo + q.1) (yo + p.1) (charToCell q.2)
          else acc2) acc) acc).get_cell x y =
      if yo + m ≤ y ∧ y < yo + m + pattern.length ∧ xo ≤ x ∧
          x < xo + (pattern.getD (y - (yo + m)) []).length
      then some (charToCell
        ((pattern.getD (y - (yo + m)) []).getD (x - xo) ' '))
      else acc.get_cell x y := by
  intro pattern
  induction pattern with
  | nil =>
    intro m acc hwf hW hH
    rw [List.enumFrom_nil, List.foldl_nil,
      if_neg (by simp only [List.length_nil]; omega)]
  | cons row rest ih =>
    intro m acc hwf hW hH
    rw [List.enumFrom_cons, List.foldl_cons]
    dsimp only
    rw [List.enum_eq_enumFrom]
    set acc1 : Grid :=
      (row.enumFrom 0).foldl (fun acc2 q =>
        if xo + q.1 < acc2.width ∧ yo + m < acc2.height then
          acc2.set_cell (xo + q.1) (yo + m) (charToCell q.2)
        else acc2) acc with hacc1
    have hdims : SameDims acc acc1 := by
      rw [hacc1]
      refine foldl_sameDims _ (fun g2 q => ?_) _ acc
      split
      · exact set_cell_sameDims g2 _ _ _
      · exact sameDims_refl g2
    have hwf1 : acc1.WF := sameDims_WF hdims hwf
    have hW1 : acc1.width = W := hdims.1.trans hW
    have hH1 : acc1.height = H := hdims.2.1.trans hH
    have hinner : acc1.get_cell x y =
        if y = yo + m ∧ xo + 0 ≤ x ∧ x < xo + 0 + row.length
        then some (charToCell (row.getD (x - (xo + 0)) ' '))
        else acc.get_cell x y := by
      rw [hacc1]
      exact load_row_get_cell hx hy xo (yo + m) row 0 acc hwf hW hH
    rw [ih (m + 1) acc1 hwf1 hW1 hH1]
    by_cases hyrow : y = yo + m
    · rw [if_neg (by omega), hinner]
      have h0 : y - (yo + m) = 0 := by omega
      rw [h0, List.getD_cons_zero]
      by_cases hx2 : xo ≤ x ∧ x < xo + row.length
      · rw [if_pos ⟨hyrow, by omega, by omega⟩,
          if_pos ⟨by omega, by simp only [List.length_cons]; omega, hx2.1, hx2.2⟩]
        have : x - (xo + 0) = x - xo := by omega
        rw [this]
      · rw [if_neg (by omega), if_neg (by omega)]
    · by_cases hrest : yo + (m + 1) ≤ y ∧ y < yo + (m + 1) + rest.length ∧
          xo ≤ x ∧ x < xo + (rest.getD (y - (yo + (m + 1))) []).length
      · have hsucc : y - (yo + m) = (y - (yo + (m + 1))) + 1 := by omega
        rw [if_pos hrest, hsucc, List.getD_cons_succ,
          if_pos ⟨by omega, by simp only [List.length_cons]; omega,
            hrest.2.2.1, hrest.2.2.2⟩]
      · rw [if_neg hrest, hinner, if_neg (by omega)]
        rw [if_neg ?hneg]
        case hneg =>
          rintro ⟨hc1, hc2, hc3, hc4⟩
          have hge : yo + (m + 1) ≤ y := by omega
          have hsucc : y - (yo + m) = (y - (yo + (m + 1))) + 1 := by omega
          rw [hsucc, List.getD_cons_succ] at hc4
          apply hrest
          refine ⟨hge, ?_, hc3, hc4⟩
          simp only [List.length_cons] at hc2
          omega

end Grid

/-- C3: after `load_pattern pattern xo yo`, an in-bounds cell `(x, y)` is
Alive iff it is covered by some stencil position `(dx, dy)` (row `dy`,
character `dx`, target `x = xo + dx`, `y = yo + dy`) whose character is
`'O'`, `'*'` or `'#'`; every other in-bounds cell — including cells that
were Alive before the call and targets of out-of-bounds stencil cells —
reads Dead, and no error is raised (the operation is total). -/
theorem Grid.load_pattern_spec (g : Grid) (hwf : g.WF)
    (pattern : List (List Char)) (xo yo x y : Nat)
    (hx : x < g.width) (hy : y < g.height) :
    (g.load_pattern pattern xo yo).get_cell x y = some CellState.Alive ↔
      ∃ dy dx row c, pattern.get? dy = some row ∧ row.get? dx = some c ∧
        x = xo + dx ∧ y = yo + dy ∧ (c = 'O' ∨ c = '*' ∨ c = '#') := by
  unfold Grid.load_pattern
  rw [List.enum_eq_enumFrom,
    Grid.load_rows_get_cell hx hy xo yo pattern 0 g.clear
      (Grid.sameDims_WF (Grid.clear_sameDims g) hwf) rfl rfl]
  simp only [Nat.add_zero]
  by_cases hcond : yo ≤ y ∧ y < yo + pattern.length ∧ xo ≤ x ∧
      x < xo + (pattern.getD (y - yo) []).length
  · rw [if_pos hcond]
    constructor
    · intro halive
      have hch : Grid.charToCell
          ((pattern.getD (y - yo) []).getD (x - xo) ' ') = CellState.Alive :=
        Option.some.inj halive
      have hP : (pattern.getD (y - yo) []).getD (x - xo) ' ' = '*' ∨
          (pattern.getD (y - yo) []).getD (x - xo) ' ' = '#' ∨
          (pattern.getD (y - yo) []).getD (x - xo) ' ' = 'O' := by
        by_contra hnp
        unfold Grid.charToCell at hch
        rw [if_neg hnp] at hch
        exact absurd hch (by decide)
      refine ⟨y - yo, x - xo, pattern.getD (y - yo) [],
        (pattern.getD (y - yo) []).getD (x - xo) ' ',
        Grid.getD_eq_some_get? pattern [] (by omega),
        Grid.getD_eq_some_get? _ ' ' (by omega),
        by omega, by omega, by tauto⟩
    · rintro ⟨dy, dx, row, c, h1, h2, hxe, hye, h5⟩
      have hrow : pattern.getD (y - yo) [] = row := by
        have hdy : y - yo = dy := by omega
        rw [hdy, List.getD_eq_get?, h1, Option.getD_some]
      have hc : (pattern.getD (y - yo) []).getD (x - xo) ' ' = c := by
        have hdx : x - xo = dx := by omega
        rw [hrow, hdx, List.getD_eq_get?, h2, Option.getD_some]
      rw [hc]
      unfold Grid.charToCell
      rw [if_pos (by tauto)]
  · rw [if_neg hcond, Grid.get_cell_clear g hwf hx hy]
    constructor
    · intro h
      exact absurd h (by decide)
    · rintro ⟨dy, dx, row, c, h1, h2, hxe, hye, h5⟩
      exfalso
      apply hcond
      obtain ⟨hdylen, -⟩ := List.get?_eq_some.mp h1
      obtain ⟨hdxlen, -⟩ := List.get?_eq_some.mp h2
      have hrow : pattern.getD (y - yo) [] = row := by
        have hdy : y - yo = dy := by omega
        rw [hdy, List.getD_eq_get?, h1, Option.getD_some]
      refine ⟨by omega, by omega, by omega, ?_⟩
      rw [hrow]
      omega

/-- Witness for C3: the test stencil of `tests::test_load_pattern`
(src/game.rs lines 350-369) on a 10×10 grid at offset (3, 3), read at the
loaded cell (4, 3). -/
theorem load_pattern_spec_witness :
    (Grid.new 10 10).WF ∧ 4 < (Grid.new 10 10).width ∧
    3 < (Grid.new 10 10).height ∧
    (((Grid.new 10 10).load_pattern
        [[' ', 'O', ' '], [' ', ' ', 'O'], ['O', 'O', 'O']] 3 3).get_cell 4 3 =
        some CellState.Alive ↔
      ∃ dy dx row c,
        [[' ', 'O', ' '], [' ', ' ', 'O'], ['O', 'O', 'O']].get? dy = some row ∧
        row.get? dx = some c ∧ 4 = 3 + dx ∧ 3 = 3 + dy ∧
        (c = 'O' ∨ c = '*' ∨ c = '#')) :=
  ⟨by decide, by decide, by decide,
   Grid.load_pattern_spec (Grid.new 10 10) (by decide)
     [[' ', 'O', ' '], [' ', ' ', 'O'], ['O', 'O', 'O']] 3 3 4 3
     (by decide) (by decide)⟩

/-! ### Blinker oscillation (C7) -/

namespace Grid

theorem new_WF (w h : Nat) : (Grid.new w h).WF :=
  List.length_replicate (w * h) CellState.Dead

theorem get_cell_new {w h x y : Nat} (hx : x < w) (hy : y < h) :
    (Grid.new w h).get_cell x y = some CellState.Dead := by
  unfold Grid.new Grid.get_cell
  dsimp only
  rw [getD_eq_some_get? _ CellState.Dead
    (by rw [List.length_replicate]; exact index_lt hx hy)]
  congr 1
  simp

theorem blinkerHGen_dims (W H : Nat) :
    SameDims (Grid.new W H) (blinkerHGen W H) := by
  unfold blinkerHGen
  exact sameDims_trans (set_cell_sameDims _ 1 2 _)
    (sameDims_trans (set_cell_sameDims _ 2 2 _) (set_cell_sameDims _ 3 2 _))

theorem blinkerVGen_dims (W H : Nat) :
    SameDims (Grid.new W H) (blinkerVGen W H) := by
  unfold blinkerVGen
  exact sameDims_trans (set_cell_sameDims _ 2 1 _)
    (sameDims_trans (set_cell_sameDims _ 2 2 _) (set_cell_sameDims _ 2 3 _))

theorem blinkerHGen_WF (W H : Nat) : (blinkerHGen W H).WF :=
  sameDims_WF (blinkerHGen_dims W H) (new_WF W H)

theorem blinkerVGen_WF (W H : Nat) : (blinkerVGen W H).WF :=
  sameDims_WF (blinkerVGen_dims W H) (new_WF W H)

theorem blinkerHGen_get_cell {W H x y : Nat} (hx : x < W) (hy : y < H) :
    (blinkerHGen W H).get_cell x y =
      some (if (x = 1 ∨ x = 2 ∨ x = 3) ∧ y = 2 then CellState.Alive
            else CellState.Dead) := by
  have wf0 : (Grid.new W H).WF := new_WF W H
  have wf1 : ((Grid.new W H).set_cell 1 2 CellState.Alive).WF :=
    sameDims_WF (set_cell_sameDims _ 1 2 _) wf0
  have wf2 : (((Grid.new W H).set_cell 1 2 CellState.Alive).set_cell 2 2
      CellState.Alive).WF :=
    sameDims_WF (set_cell_sameDims _ 2 2 _) wf1
  have hw1 : ((Grid.new W H).set_cell 1 2 CellState.Alive).width = W :=
    (set_cell_sameDims _ 1 2 _).1
  have hh1 : ((Grid.new W H).set_cell 1 2 CellState.Alive).height = H :=
    (set_cell_sameDims _ 1 2 _).2.1
  have hw2 : (((Grid.new W H).set_cell 1 2 CellState.Alive).set_cell 2 2
      CellState.Alive).width = W := ((set_cell_sameDims _ 2 2 _).1).trans hw1
  have hh2 : (((Grid.new W H).set_cell 1 2 CellState.Alive).set_cell 2 2
      CellState.Alive).height = H := ((set_cell_sameDims _ 2 2 _).2.1).trans hh1
  unfold blinkerHGen
  rw [get_cell_set_cell _ wf2 (by rw [hw2]; exact hx) (by rw [hh2]; exact hy)
      3 2 CellState.Alive,
    get_cell_set_cell _ wf1 (by rw [hw1]; exact hx) (by rw [hh1]; exact hy)
      2 2 CellState.Alive,
    get_cell_set_cell _ wf0 hx hy 1 2 CellState.Alive,
    get_cell_new hx hy]
  split_ifs <;> first | rfl | (exfalso; omega)

theorem blinkerVGen_get_cell {W H x y : Nat} (hx : x < W) (hy : y < H) :
    (blinkerVGen W H).get_cell x y =
      some (if x = 2 ∧ (y = 1 ∨ y = 2 ∨ y = 3) then CellState.Alive
            else CellState.Dead) := by
  have wf0 : (Grid.new W H).WF := new_WF W H
  have wf1 : ((Grid.new W H).set_cell 2 1 CellState.Alive).WF :=
    sameDims_WF (set_cell_sameDims _ 2 1 _) wf0
  have wf2 : (((Grid.new W H).set_cell 2 1 CellState.Alive).set_cell 2 2
      CellState.Alive).WF :=
    sameDims_WF (set_cell_sameDims _ 2 2 _) wf1
  have hw1 : ((Grid.new W H).set_cell 2 1 CellState.Alive).width = W :=
    (set_cell_sameDims _ 2 1 _).1
  have hh1 : ((Grid.new W H).set_cell 2 1 CellState.Alive).height = H :=
    (set_cell_sameDims _ 2 1 _).2.1
  have hw2 : (((Grid.new W H).set_cell 2 1 CellState.Alive).set_cell 2 2
      CellState.Alive).width = W := ((set_cell_sameDims _ 2 2 _).1).trans hw1
  have hh2 : (((Grid.new W H).set_cell 2 1 CellState.Alive).set_cell 2 2
      CellState.Alive).height = H := ((set_cell_sameDims _ 2 2 _).2.1).trans hh1
  unfold blinkerVGen
  rw [get_cell_set_cell _ wf2 (by rw [hw2]; exact hx) (by rw [hh2]; exact hy)
      2 3 CellState.Alive,
    get_cell_set_cell _ wf1 (by rw [hw1]; exact hx) (by rw [hh1]; exact hy)
      2 2 CellState.Alive,
    get_cell_set_cell _ wf0 hx hy 2 1 CellState.Alive,
    get_cell_new hx hy]
  split_ifs <;> first | rfl | (exfalso; omega)

theorem blinkerHGen_width (W H : Nat) : (blinkerHGen W H).width = W :=
  (blinkerHGen_dims W H).1

theorem blinkerHGen_height (W H : Nat) : (blinkerHGen W H).height = H :=
  (blinkerHGen_dims W H).2.1

theorem blinkerVGen_width (W H : Nat) : (blinkerVGen W H).width = W :=
  (blinkerVGen_dims W H).1

theorem blinkerVGen_height (W H : Nat) : (blinkerVGen W H).height = H :=
  (blinkerVGen_dims W H).2.1

theorem mooreAlive_blinkerHGen {W H : Nat} (hW : 5 ≤ W) (hH : 5 ≤ H)
    (x y : Nat) (d : Int × Int) :
    (blinkerHGen W H).mooreAlive x y d ↔
      (((x : Int) + d.1 = 1 ∨ (x : Int) + d.1 = 2 ∨ (x : Int) + d.1 = 3) ∧
       (y : Int) + d.2 = 2) := by
  unfold mooreAlive
  constructor
  · rintro ⟨h1, h2, h3, h4, h5⟩
    rw [blinkerHGen_width] at h3
    rw [blinkerHGen_height] at h4
    rw [blinkerHGen_get_cell h3 h4] at h5
    have h6 := Option.some.inj h5
    by_cases hC : (((x : Int) + d.1).toNat = 1 ∨ ((x : Int) + d.1).toNat = 2 ∨
        ((x : Int) + d.1).toNat = 3) ∧ ((y : Int) + d.2).toNat = 2
    · omega
    · rw [if_neg hC] at h6
      exact absurd h6 (by decide)
  · rintro ⟨hx3, hy2⟩
    have h1 : 0 ≤ (x : Int) + d.1 := by omega
    have h2 : 0 ≤ (y : Int) + d.2 := by omega
    have h3 : ((x : Int) + d.1).toNat < W := by omega
    have h4 : ((y : Int) + d.2).toNat < H := by omega
    refine ⟨h1, h2, by rw [blinkerHGen_width]; exact h3,
      by rw [blinkerHGen_height]; exact h4, ?_⟩
    rw [blinkerHGen_get_cell h3 h4, if_pos (by omega)]

theorem mooreAlive_blinkerVGen {W H : Nat} (hW : 5 ≤ W) (hH : 5 ≤ H)
    (x y : Nat) (d : Int × Int) :
    (blinkerVGen W H).mooreAlive x y d ↔
      ((x : Int) + d.1 = 2 ∧
       ((y : Int) + d.2 = 1 ∨ (y : Int) + d.2 = 2 ∨ (y : Int) + d.2 = 3)) := by
  unfold mooreAlive
  constructor
  · rintro ⟨h1, h2, h3, h4, h5⟩
    rw [blinkerVGen_width] at h3
    rw [blinkerVGen_height] at h4
    rw [blinkerVGen_get_cell h3 h4] at h5
    have h6 := Option.some.inj h5
    by_cases hC : ((x : Int) + d.1).toNat = 2 ∧
        (((y : Int) + d.2).toNat = 1 ∨ ((y : Int) + d.2).toNat = 2 ∨
         ((y : Int) + d.2).toNat = 3)
    · omega
    · rw [if_neg hC] at h6
      exact absurd h6 (by decide)
  · rintro ⟨hx2, hy3⟩
    have h1 : 0 ≤ (x : Int) + d.1 := by omega
    have h2 : 0 ≤ (y : Int) + d.2 := by omega
    have h3 : ((x : Int) + d.1).toNat < W := by omega
    have h4 : ((y : Int) + d.2).toNat < H := by omega
    refine ⟨h1, h2, by rw [blinkerVGen_width]; exact h3,
      by rw [blinkerVGen_height]; exact h4, ?_⟩
    rw [blinkerVGen_get_cell h3 h4, if_pos (by omega)]

theorem count_blinkerHGen {W H : Nat} (hW : 5 ≤ W) (hH : 5 ≤ H) (x y : Nat) :
    (blinkerHGen W H).count_neighbors x y =
      (NEIGHBOR_OFFSETS.filter (fun d =>
        decide (((x : Int) + d.1 = 1 ∨ (x : Int) + d.1 = 2 ∨
          (x : Int) + d.1 = 3) ∧ (y : Int) + d.2 = 2))).length := by
  rw [count_neighbors_eq_filter _ (blinkerHGen_WF W H) x y]
  congr 1
  apply List.filter_congr
  intro d hd
  rw [decide_eq_decide]
  exact mooreAlive_blinkerHGen hW hH x y d

theorem count_blinkerVGen {W H : Nat} (hW : 5 ≤ W) (hH : 5 ≤ H) (x y : Nat) :
    (blinkerVGen W H).count_neighbors x y =
      (NEIGHBOR_OFFSETS.filter (fun d =>
        decide ((x : Int) + d.1 = 2 ∧
          ((y : Int) + d.2 = 1 ∨ (y : Int) + d.2 = 2 ∨
           (y : Int) + d.2 = 3)))).length := by
  rw [count_neighbors_eq_filter _ (blinkerVGen_WF W H) x y]
  congr 1
  apply List.filter_congr
  intro d hd
  rw [decide_eq_decide]
  exact mooreAlive_blinkerVGen hW hH x y d

theorem stepCell_blinkerHGen {W H : Nat} (hW : 5 ≤ W) (hH : 5 ≤ H)
    (x y : Nat) (hx : x < W) (hy : y < H) :
    (blinkerHGen W H).stepCell x y =
      if x = 2 ∧ (y = 1 ∨ y = 2 ∨ y = 3) then CellState.Alive
      else CellState.Dead := by
  have hpre : (blinkerHGen W H).cells.getD
      (y * (blinkerHGen W H).width + x) CellState.Dead =
      (if (x = 1 ∨ x = 2 ∨ x = 3) ∧ y = 2 then CellState.Alive
       else CellState.Dead) := by
    have h1 := get_cell_eq_getD (blinkerHGen_WF W H) (x := x) (y := y)
      (by rw [blinkerHGen_width]; exact hx)
      (by rw [blinkerHGen_height]; exact hy)
    exact Option.some.inj (h1.symm.trans (blinkerHGen_get_cell hx hy))
  unfold stepCell
  rw [hpre, count_blinkerHGen hW hH x y]
  by_cases hyc : y = 1 ∨ y = 2 ∨ y = 3
  · by_cases hxc : x = 0 ∨ x = 1 ∨ x = 2 ∨ x = 3 ∨ x = 4
    · rcases hyc with rfl | rfl | rfl <;>
        rcases hxc with rfl | rfl | rfl | rfl | rfl <;> decide
    · have hfe : (NEIGHBOR_OFFSETS.filter (fun d =>
          decide (((x : Int) + d.1 = 1 ∨ (x : Int) + d.1 = 2 ∨
            (x : Int) + d.1 = 3) ∧ (y : Int) + d.2 = 2))) = [] := by
        rw [List.filter_eq_nil]
        intro d hd
        fin_cases hd <;> (simp only [decide_eq_true_eq]; omega)
      rw [hfe,
        if_neg (by omega : ¬((x = 1 ∨ x = 2 ∨ x = 3) ∧ y = 2)),
        if_neg (by omega : ¬(x = 2 ∧ (y = 1 ∨ y = 2 ∨ y = 3)))]
      rfl
  · have hfe : (NEIGHBOR_OFFSETS.filter (fun d =>
        decide (((x : Int) + d.1 = 1 ∨ (x : Int) + d.1 = 2 ∨
          (x : Int) + d.1 = 3) ∧ (y : Int) + d.2 = 2))) = [] := by
      rw [List.filter_eq_nil]
      intro d hd
      fin_cases hd <;> (simp only [decide_eq_true_eq]; omega)
    rw [hfe,
      if_neg (by omega : ¬((x = 1 ∨ x = 2 ∨ x = 3) ∧ y = 2)),
      if_neg (by omega : ¬(x = 2 ∧ (y = 1 ∨ y = 2 ∨ y = 3)))]
    rfl

theorem stepCell_blinkerVGen {W H : Nat} (hW : 5 ≤ W) (hH : 5 ≤ H)
    (x y : Nat) (hx : x < W) (hy : y < H) :
    (blinkerVGen W H).stepCell x y =
      if (x = 1 ∨ x = 2 ∨ x = 3) ∧ y = 2 then CellState.Alive
      else CellState.Dead := by
  have hpre : (blinkerVGen W H).cells.getD
      (y * (blinkerVGen W H).width + x) CellState.Dead =
      (if x = 2 ∧ (y = 1 ∨ y = 2 ∨ y = 3) then CellState.Alive
       else CellState.Dead) := by
    have h1 := get_cell_eq_getD (blinkerVGen_WF W H) (x := x) (y := y)
      (by rw [blinkerVGen_width]; exact hx)
      (by rw [blinkerVGen_height]; exact hy)
    exact Option.some.inj (h1.symm.trans (blinkerVGen_get_cell hx hy))
  unfold stepCell
  rw [hpre, count_blinkerVGen hW hH x y]
  by_cases hyc : y = 0 ∨ y = 1 ∨ y = 2 ∨ y = 3 ∨ y = 4
  · by_cases hxc : x = 1 ∨ x = 2 ∨ x = 3
    · rcases hyc with rfl | rfl | rfl | rfl | rfl <;>
        rcases hxc with rfl | rfl | rfl <;> decide
    · have hfe : (NEIGHBOR_OFFSETS.filter (fun d =>
          decide ((x : Int) + d.1 = 2 ∧
            ((y : Int) + d.2 = 1 ∨ (y : Int) + d.2 = 2 ∨
             (y : Int) + d.2 = 3)))) = [] := by
        rw [List.filter_eq_nil]
        intro d hd
        fin_cases hd <;> (simp only [decide_eq_true_eq]; omega)
      rw [hfe,
        if_neg (by omega : ¬(x = 2 ∧ (y = 1 ∨ y = 2 ∨ y = 3))),
        if_neg (by omega : ¬((x = 1 ∨ x = 2 ∨ x = 3) ∧ y = 2))]
      rfl
  · have hfe : (NEIGHBOR_OFFSETS.filter (fun d =>
        decide ((x : Int) + d.1 = 2 ∧
          ((y : Int) + d.2 = 1 ∨ (y : Int) + d.2 = 2 ∨
           (y : Int) + d.2 = 3)))) = [] := by
      rw [List.filter_eq_nil]
      intro d hd
      fin_cases hd <;> (simp only [decide_eq_true_eq]; omega)
    rw [hfe,
      if_neg (by omega : ¬(x = 2 ∧ (y = 1 ∨ y = 2 ∨ y = 3))),
      if_neg (by omega : ¬((x = 1 ∨ x = 2 ∨ x = 3) ∧ y = 2))]
    rfl

end Grid

/-- C7: on any W×H grid with W, H ≥ 5 whose only Alive cells are the
horizontal line (1,2), (2,2), (3,2), one call to `next_generation` yields
exactly the vertical line (2,1), (2,2), (2,3) (every other cell Dead), and
a second call restores exactly the original horizontal line. -/
theorem blinker_period_two (W H : Nat) (hW : 5 ≤ W) (hH : 5 ≤ H) :
    (blinkerHGen W H).next_generation = blinkerVGen W H ∧
    (blinkerVGen W H).next_generation = blinkerHGen W H := by
  constructor
  · apply Grid.grid_ext
      (Grid.sameDims_WF (Grid.next_generation_sameDims _) (Grid.blinkerHGen_WF W H))
      (Grid.blinkerVGen_WF W H)
    · rw [Grid.next_generation_width, Grid.blinkerHGen_width,
        Grid.blinkerVGen_width]
    · rw [Grid.next_generation_height, Grid.blinkerHGen_height,
        Grid.blinkerVGen_height]
    · intro x hx y hy
      rw [Grid.next_generation_width, Grid.blinkerHGen_width] at hx
      rw [Grid.next_generation_height, Grid.blinkerHGen_height] at hy
      rw [Grid.next_generation_get_cell _ (Grid.blinkerHGen_WF W H)
          (by rw [Grid.blinkerHGen_width]; exact hx)
          (by rw [Grid.blinkerHGen_height]; exact hy),
        Grid.blinkerVGen_get_cell hx hy]
      exact congrArg some (Grid.stepCell_blinkerHGen hW hH x y hx hy)
  · apply Grid.grid_ext
      (Grid.sameDims_WF (Grid.next_generation_sameDims _) (Grid.blinkerVGen_WF W H))
      (Grid.blinkerHGen_WF W H)
    · rw [Grid.next_generation_width, Grid.blinkerVGen_width,
        Grid.blinkerHGen_width]
    · rw [Grid.next_generation_height, Grid.blinkerVGen_height,
        Grid.blinkerHGen_height]
    · intro x hx y hy
      rw [Grid.next_generation_width, Grid.blinkerVGen_width] at hx
      rw [Grid.next_generation_height, Grid.blinkerVGen_height] at hy
      rw [Grid.next_generation_get_cell _ (Grid.blinkerVGen_WF W H)
          (by rw [Grid.blinkerVGen_width]; exact hx)
          (by rw [Grid.blinkerVGen_height]; exact hy),
        Grid.blinkerHGen_get_cell hx hy]
      exact congrArg some (Grid.stepCell_blinkerVGen hW hH x y hx hy)

/-- Witness for C7 at the 5×5 size of the source test. -/
theorem blinker_period_two_witness :
    5 ≤ 5 ∧
    ((blinkerHGen 5 5).next_generation = blinkerVGen 5 5 ∧
     (blinkerVGen 5 5).next_generation = blinkerHGen 5 5) :=
  ⟨by decide, blinker_period_two 5 5 (by decide) (by decide)⟩
